import Mathlib

/-!
Shallow embedding of `converter.py` from AutoEq-To-FabFilter-Pro-Q-4.

Numbers parsed from the input text are decimal literals, modelled as `ℚ`;
the two logarithmic transforms (`frequency_to_proq4`, `q_to_proq4`) land in
`ℝ`.  A Python `ValueError` (from `math.log2` on a non-positive argument)
is modelled as `Option.none`, which propagates through the emitter.

The Python regular expressions used by `parse_text_preset` are embedded as
deterministic matchers over `List Char`; for these particular patterns the
repetition classes (`\s`, `\d`, `\w`) are disjoint from each follower, so
greedy matching without backtracking agrees with Python `re` semantics, and
`re.search` is modelled by trying the matcher at every suffix.  Character
classes are modelled at ASCII.
-/

namespace Converter

/-- One parsed equalizer filter (the `Filter` dataclass). -/
structure Filter where
  enabled : Bool
  filter_type : String
  frequency : ℚ
  gain : ℚ
  q : ℚ
  deriving DecidableEq, Repr

/-- A parsed preset (the `EQPreset` dataclass). -/
structure EQPreset where
  preamp : ℚ
  filters : List Filter
  name : String := ""
  author : String := ""
  tags : String := ""
  deriving DecidableEq, Repr

/-! ### Character classes (ASCII model of Python `\s`, `\d`, `\w`) -/

/-- Python `\s` at ASCII: space, tab, newline, carriage return, vertical tab, form feed. -/
def isSpaceC (c : Char) : Bool :=
  c = ' ' || c = '\t' || c = '\n' || c = '\r' || c = '\x0b' || c = '\x0c'

/-- Python `\w` at ASCII: letters, digits, underscore. -/
def isWordC (c : Char) : Bool :=
  c.isAlphanum || c = '_'

/-- Python `str.strip()` at ASCII: remove leading and trailing whitespace. -/
def pyStrip (cs : List Char) : List Char :=
  ((cs.dropWhile isSpaceC).reverse.dropWhile isSpaceC).reverse

/-- Python `str.split('\n')`. -/
def splitLines : List Char → List (List Char)
  | [] => [[]]
  | '\n' :: t => [] :: splitLines t
  | c :: t =>
    match splitLines t with
    | [] => [[c]]
    | l :: ls => (c :: l) :: ls

/-! ### Matcher building blocks -/

/-- Consume an exact literal, returning the rest of the input. -/
def litM : List Char → List Char → Option (List Char)
  | [], cs => some cs
  | p :: ps, c :: cs => if c = p then litM ps cs else none
  | _ :: _, [] => none

/-- Python `str.startswith`. -/
def startsWithC (pat cs : List Char) : Bool :=
  (litM pat cs).isSome

/-- Greedy `\s+`: at least one whitespace character. -/
def ws1 : List Char → Option (List Char)
  | [] => none
  | c :: t => if isSpaceC c then some (t.dropWhile isSpaceC) else none

/-- Greedy `\s*`. -/
def ws0 (cs : List Char) : List Char :=
  cs.dropWhile isSpaceC

/-- Greedy `\d+` whose digits are discarded (the literal filter number). -/
def digits1drop : List Char → Option (List Char)
  | [] => none
  | c :: t => if c.isDigit then some (t.dropWhile Char.isDigit) else none

/-- Greedy `(\w+)`: at least one word character, returned as a `String`. -/
def word1 (cs : List Char) : Option (String × List Char) :=
  match cs.takeWhile isWordC with
  | [] => none
  | d :: ds => some (String.mk (d :: ds), cs.dropWhile isWordC)

/-- Numeric value of a digit string. -/
def digitsVal (ds : List Char) : ℕ :=
  ds.foldl (fun n c => 10 * n + (c.toNat - '0'.toNat)) 0

/-- Value of a fractional digit string (the part after the decimal point). -/
def fracVal (ds : List Char) : ℚ :=
  (digitsVal ds : ℚ) / ((10 : ℚ) ^ ds.length)

/-- Greedy `(\d+\.?\d*)` followed by Python `float` conversion. -/
def readUNum (cs : List Char) : Option (ℚ × List Char) :=
  match cs.takeWhile Char.isDigit with
  | [] => none
  | d :: ds =>
    match cs.dropWhile Char.isDigit with
    | [] => some ((digitsVal (d :: ds) : ℚ), [])
    | c :: rest2 =>
      if c = '.' then
        some ((digitsVal (d :: ds) : ℚ) + fracVal (rest2.takeWhile Char.isDigit),
              rest2.dropWhile Char.isDigit)
      else some ((digitsVal (d :: ds) : ℚ), c :: rest2)

/-- Greedy `(-?\d+\.?\d*)` followed by Python `float` conversion. -/
def readSNum : List Char → Option (ℚ × List Char)
  | '-' :: t => (readUNum t).map (fun p => (-p.1, p.2))
  | cs => readUNum cs

/-- The `(ON|OFF)` alternation. -/
def onoffM : List Char → Option (Bool × List Char)
  | 'O' :: 'N' :: t => some (true, t)
  | 'O' :: 'F' :: 'F' :: t => some (false, t)
  | _ => none

/-- Head of the filter pattern: `(ON|OFF)\s+(\w+)\s+Fc\s+` after
`Filter\s+\d+:\s+`, yielding the enabled flag and the type token. -/
def matchFilterHead (cs : List Char) : Option (Bool × String × List Char) :=
  (onoffM cs).bind fun en =>
  (ws1 en.2).bind fun r7 =>
  (word1 r7).bind fun ty =>
  (ws1 ty.2).bind fun r9 =>
  (litM "Fc".data r9).bind fun r10 =>
  (ws1 r10).map fun r11 => (en.1, ty.1, r11)

/-- Middle of the filter pattern: `(\d+\.?\d*)\s*Hz\s+Gain\s+`, yielding
the frequency. -/
def matchFilterFreq (cs : List Char) : Option (ℚ × List Char) :=
  (readUNum cs).bind fun fc =>
  (litM "Hz".data (ws0 fc.2)).bind fun r13 =>
  (ws1 r13).bind fun r14 =>
  (litM "Gain".data r14).bind fun r15 =>
  (ws1 r15).map fun r16 => (fc.1, r16)

/-- Tail of the filter pattern: `(-?\d+\.?\d*)\s*dB\s+Q\s+(\d+\.?\d*)`,
yielding the gain and the Q value. -/
def matchFilterGainQ (cs : List Char) : Option (ℚ × ℚ) :=
  (readSNum cs).bind fun g =>
  (litM "dB".data (ws0 g.2)).bind fun r18 =>
  (ws1 r18).bind fun r19 =>
  (litM "Q".data r19).bind fun r20 =>
  (ws1 r20).bind fun r21 =>
  (readUNum r21).map fun qv => (g.1, qv.1)

/-- The filter pattern from the `\s+` that follows the colon onwards. -/
def matchFilterAfterColon (cs : List Char) : Option Filter :=
  (ws1 cs).bind fun r5 =>
  (matchFilterHead r5).bind fun h =>
  (matchFilterFreq h.2.2).bind fun fc =>
  (matchFilterGainQ fc.2).map fun gq =>
    { enabled := h.1, filter_type := h.2.1, frequency := fc.1,
      gain := gq.1, q := gq.2 }

/-- Match the filter pattern
`Filter\s+\d+:\s+(ON|OFF)\s+(\w+)\s+Fc\s+(\d+\.?\d*)\s*Hz\s+Gain\s+(-?\d+\.?\d*)\s*dB\s+Q\s+(\d+\.?\d*)`
at the start of the input. -/
def matchFilterAt (cs : List Char) : Option Filter :=
  (litM "Filter".data cs).bind fun r1 =>
  (ws1 r1).bind fun r2 =>
  (digits1drop r2).bind fun r3 =>
  (litM [':'] r3).bind fun r4 =>
  matchFilterAfterColon r4

/-- Match the preamp pattern `Preamp:\s*(-?\d+\.?\d*)\s*dB` at the start of
the input, returning the captured number. -/
def matchPreampAt (cs : List Char) : Option ℚ :=
  (litM "Preamp:".data cs).bind fun r1 =>
  (readSNum (ws0 r1)).bind fun v =>
  (litM "dB".data (ws0 v.2)).map fun _ => v.1

/-- Python `re.search`: try the matcher at every start position. -/
def searchO (m : List Char → Option α) : List Char → Option α
  | [] => m []
  | c :: t =>
    match m (c :: t) with
    | some a => some a
    | none => searchO m t

/-- Per-line step of `parse_text_preset`'s scan: a `Preamp:` line may
overwrite the preamp, a `Filter` line may append a filter, anything else is
skipped. -/
def parseLine (st : ℚ × List Filter) (rawLine : List Char) : ℚ × List Filter :=
  let line := pyStrip rawLine
  if startsWithC "Preamp:".data line then
    match searchO matchPreampAt line with
    | some v => (v, st.2)
    | none => st
  else if startsWithC "Filter".data line then
    match searchO matchFilterAt line with
    | some f => (st.1, st.2 ++ [f])
    | none => st
  else st

/-- `parse_text_preset`: strip the text, split into lines, scan each line. -/
def parse_text_preset (text : String) : EQPreset :=
  let lines := splitLines (pyStrip text.data)
  let st := lines.foldl parseLine (0, [])
  { preamp := st.1, filters := st.2 }

/-! ### Unit transforms -/

/-- `frequency_to_proq4`: `math.log2(freq_hz)`; `none` models the
`ValueError` Python raises on a non-positive argument. -/
noncomputable def frequency_to_proq4 (freq_hz : ℚ) : Option ℝ :=
  if 0 < freq_hz then some (Real.logb 2 (freq_hz : ℝ)) else none

/-- Lower clamp bound of `q_to_proq4` (`Q_MIN`). -/
def Q_MIN : ℚ := 0.025

/-- Upper clamp bound of `q_to_proq4` (`Q_MAX`). -/
def Q_MAX : ℚ := 40.0

/-- `q_to_proq4`: clamp `q` to `[Q_MIN, Q_MAX]`, then normalize
logarithmically.  The `filter_type` argument is accepted and unused. -/
noncomputable def q_to_proq4 (q : ℚ) (filter_type : String) : ℝ :=
  let qc : ℚ := max Q_MIN (min Q_MAX q)
  (Real.log (qc : ℝ) - Real.log (Q_MIN : ℝ)) /
    (Real.log (Q_MAX : ℝ) - Real.log (Q_MIN : ℝ))

/-- `filter_type_to_shape`: the dictionary lookup with default `0`. -/
def filter_type_to_shape (filter_type : String) : ℕ :=
  if filter_type = "PK" then 0
  else if filter_type = "LSC" then 1
  else if filter_type = "LP" then 2
  else if filter_type = "HSC" then 3
  else if filter_type = "HP" then 4
  else 0

/-- `preamp_to_output_level`: `preamp / 36.0`. -/
def preamp_to_output_level (preamp : ℚ) : ℚ :=
  preamp / 36.0

/-! ### Band parameters -/

/-- The fixed per-band parameter set (`Band N <Field>` keys of the Python
dict, as named record fields; the values are the numeric readings of the
emitted strings). -/
structure BandParams where
  used : ℚ
  enabled : ℚ
  frequency : ℝ
  gain : ℚ
  q : ℝ
  shape : ℚ
  slope : ℚ
  stereoPlacement : ℚ
  speakers : ℚ
  dynamicRange : ℚ
  dynamicsEnabled : ℚ
  dynamicsAuto : ℚ
  threshold : ℚ
  attack : ℚ
  releaseTime : ℚ
  externalSideChain : ℚ
  sideChainFiltering : ℚ
  sideChainLowFrequency : ℚ
  sideChainHighFrequency : ℚ
  sideChainAudition : ℚ
  spectralEnabled : ℚ
  spectralDensity : ℚ
  solo : ℚ

/-- `generate_default_band_params(band_num, used)`.  The `band_num`
argument only names the dict keys in the source, so the record does not
depend on it. -/
def generate_default_band_params (_band_num : ℕ) (used : Bool) : BandParams :=
  { used := if used then 1 else 0
    enabled := 1
    frequency := (9.96578407287598 : ℚ)  -- '9.96578407287598', ~1000 Hz default
    gain := 0
    q := (0.5 : ℚ)
    shape := 0
    slope := 2
    stereoPlacement := 2
    speakers := 1
    dynamicRange := 0
    dynamicsEnabled := 1
    dynamicsAuto := 1
    threshold := if used then 1 else 0.666666686534882
    attack := 50
    releaseTime := 50
    externalSideChain := 0
    sideChainFiltering := 0
    sideChainLowFrequency := if used then 6.64385604858398 else 3.32192802429199
    sideChainHighFrequency := if used then 11.5507469177246 else 14.287712097168
    sideChainAudition := 0
    spectralEnabled := 0
    spectralDensity := 50
    solo := 0 }

/-! ### Emitter -/

/-- Band parameters for a band backed by a parsed filter: start from the
"used" defaults and override `Used`, `Enabled`, `Frequency`, `Gain`, `Q`
and `Shape`; `none` when the frequency transform raises. -/
noncomputable def usedBandParams (i : ℕ) (filt : Filter) : Option BandParams :=
  match frequency_to_proq4 filt.frequency with
  | none => none
  | some fr =>
    some { generate_default_band_params i true with
            used := 1
            enabled := if filt.enabled then 1 else 0
            frequency := fr
            gain := filt.gain
            q := q_to_proq4 filt.q filt.filter_type
            shape := (filter_type_to_shape filt.filter_type : ℚ) }

/-- One iteration of the band loop (`for i in range(1, 25)`): band `i`
takes filter `i-1` when `i <= len(filters)`, else the unused defaults. -/
noncomputable def mkBand (filters : List Filter) (i : ℕ) : Option (ℕ × BandParams) :=
  match filters[i - 1]? with
  | some filt => (usedBandParams i filt).map (fun bp => (i, bp))
  | none => some (i, generate_default_band_params i false)

/-- `Option`-valued `List.map`, failing when any element fails (the first
`ValueError` aborts the whole conversion). -/
def mapO (f : α → Option β) : List α → Option (List β)
  | [] => some []
  | a :: t =>
    match f a, mapO f t with
    | some b, some bs => some (b :: bs)
    | _, _ => none

/-- The fixed global / analyzer parameter lines, in source order; only
`Output Level` depends on the input. -/
def globalParams (preamp : ℚ) : List (String × ℚ) :=
  [("Processing Mode", 0), ("Processing Resolution", 1), ("Character", 0),
   ("Gain Scale", 1), ("Output Level", preamp_to_output_level preamp),
   ("Output Pan", 0), ("Output Pan Mode", 0), ("Bypass", 0),
   ("Output Invert Phase", 0), ("Auto Gain", 0),
   ("Analyzer Show Pre-Processing", 1), ("Analyzer Show Post-Processing", 1),
   ("Analyzer Show External Spectrum", 1), ("Analyzer External Spectrum", -1),
   ("Analyzer Range", 2), ("Analyzer Resolution", 3), ("Analyzer Speed", 2),
   ("Analyzer Tilt", 0), ("Analyzer Freeze", 0),
   ("Analyzer Show Collisions", 0), ("Spectrum Grab", 0),
   ("Display Range", 2), ("Receive Midi", 0), ("Solo Gain", 0)]

/-- The structured output document: header metadata, the 24 band blocks
(with their 1-based band indices), the global key-value lines, and the
`Band N Spectral Tilt` lines. -/
structure FFP where
  signature : String
  version : ℕ
  author : String
  tags : String
  bands : List (ℕ × BandParams)
  globals : List (String × ℚ)
  tilts : List (ℕ × ℚ)

/-- `eq_preset_to_ffp`: emit the full document; `none` when any band's
frequency transform raises. -/
noncomputable def eq_preset_to_ffp (preset : EQPreset) : Option FFP :=
  match mapO (mkBand preset.filters) (List.range' 1 24) with
  | none => none
  | some bands =>
    some { signature := "FQ4p"
           version := 4
           author := preset.author
           tags := preset.tags
           bands := bands
           globals := globalParams preset.preamp
           tilts := (List.range' 1 24).map
             (fun i => (i, if i ≤ preset.filters.length then (1 : ℚ) else 0)) }

/-- `convert_text_to_ffp` without the file write: parse, attach metadata,
emit; a transform failure propagates to the caller as `none`. -/
noncomputable def convert_text_to_ffp (input_text : String) (author : String := "")
    (tags : String := "") : Option FFP :=
  let preset := parse_text_preset input_text
  eq_preset_to_ffp { preset with author := author, tags := tags }

end Converter

/-! ### Infrastructure lemmas -/

namespace Converter

theorem mapO_length {f : α → Option β} : ∀ {l : List α} {bs : List β},
    mapO f l = some bs → bs.length = l.length := by
  intro l
  induction l with
  | nil => intro bs h; simp [mapO] at h; simp [← h]
  | cons a t ih =>
    intro bs h
    simp only [mapO] at h
    cases hfa : f a with
    | none => rw [hfa] at h; simp at h
    | some b =>
      rw [hfa] at h
      cases hmt : mapO f t with
      | none => rw [hmt] at h; simp at h
      | some bt =>
        rw [hmt] at h
        simp at h
        subst h
        simp [ih hmt]

theorem mapO_get? {f : α → Option β} : ∀ {l : List α} {bs : List β},
    mapO f l = some bs → ∀ (i : ℕ) (a : α), l[i]? = some a →
    ∃ b, f a = some b ∧ bs[i]? = some b := by
  intro l
  induction l with
  | nil => intro bs _ i a ha; simp at ha
  | cons x t ih =>
    intro bs h i a ha
    simp only [mapO] at h
    cases hfx : f x with
    | none => rw [hfx] at h; simp at h
    | some b =>
      rw [hfx] at h
      cases hmt : mapO f t with
      | none => rw [hmt] at h; simp at h
      | some bt =>
        rw [hmt] at h
        simp at h
        subst h
        cases i with
        | zero =>
          simp at ha
          subst ha
          exact ⟨b, hfx, by simp⟩
        | succ j =>
          simp only [List.getElem?_cons_succ] at ha ⊢
          exact ih hmt j a ha

theorem mapO_eq_none {f : α → Option β} : ∀ {l : List α} {a : α},
    a ∈ l → f a = none → mapO f l = none := by
  intro l
  induction l with
  | nil => intro a ha; simp at ha
  | cons x t ih =>
    intro a ha hfa
    simp only [mapO]
    rcases List.mem_cons.mp ha with h | h
    · subst h
      rw [hfa]
    · rw [ih h hfa]
      cases f x <;> rfl

theorem mapO_of_forall_some {f : α → Option β} {g : α → β} : ∀ {l : List α},
    (∀ a ∈ l, f a = some (g a)) → mapO f l = some (l.map g) := by
  intro l
  induction l with
  | nil => intro _; rfl
  | cons x t ih =>
    intro h
    simp only [mapO]
    rw [h x (List.mem_cons_self x t), ih (fun a ha => h a (List.mem_cons_of_mem x ha))]
    simp

theorem mem_range'_iff {i : ℕ} : i ∈ List.range' 1 24 ↔ 1 ≤ i ∧ i < 25 := by
  rw [List.mem_range']
  constructor
  · rintro ⟨j, hj, rfl⟩
    omega
  · rintro ⟨h1, h2⟩
    exact ⟨i - 1, by omega, by omega⟩

end Converter

namespace Converter

/-- C4: `frequency_to_proq4` is strictly increasing on positive inputs and
adds exactly 1 when the frequency doubles. -/
theorem c4_frequency_strict_mono_and_octave (f₁ f₂ f : ℚ) :
    (0 < f₁ → f₁ < f₂ → ∃ y₁ y₂, frequency_to_proq4 f₁ = some y₁ ∧
      frequency_to_proq4 f₂ = some y₂ ∧ y₁ < y₂) ∧
    (0 < f → ∃ y, frequency_to_proq4 f = some y ∧
      frequency_to_proq4 (2 * f) = some (y + 1)) := by
  constructor
  · intro h1 h12
    have h2 : 0 < f₂ := lt_trans h1 h12
    refine ⟨Real.logb 2 (f₁ : ℝ), Real.logb 2 (f₂ : ℝ), ?_, ?_, ?_⟩
    · simp [frequency_to_proq4, h1]
    · simp [frequency_to_proq4, h2]
    · exact Real.logb_lt_logb (by norm_num) (by exact_mod_cast h1) (by exact_mod_cast h12)
  · intro hf
    have h2f : 0 < 2 * f := by positivity
    refine ⟨Real.logb 2 (f : ℝ), by simp [frequency_to_proq4, hf], ?_⟩
    simp only [frequency_to_proq4, if_pos h2f]
    push_cast
    rw [Real.logb_mul (by norm_num) (by positivity), Real.logb_self_eq_one (by norm_num)]
    ring_nf

/-- C4 witness at `f₁ = 1`, `f₂ = 2`, `f = 1`. -/
theorem c4_frequency_strict_mono_and_octave_witness :
    (0 : ℚ) < 1 ∧ (1 : ℚ) < 2 ∧
    (∃ y₁ y₂, frequency_to_proq4 1 = some y₁ ∧ frequency_to_proq4 2 = some y₂ ∧ y₁ < y₂) ∧
    (∃ y, frequency_to_proq4 1 = some y ∧ frequency_to_proq4 (2 * 1) = some (y + 1)) :=
  ⟨by norm_num, by norm_num,
   (c4_frequency_strict_mono_and_octave 1 2 1).1 (by norm_num) (by norm_num),
   (c4_frequency_strict_mono_and_octave 1 2 1).2 (by norm_num)⟩

end Converter

namespace Converter

theorem qmin_lt_qmax_log : Real.log ((Q_MIN : ℚ) : ℝ) < Real.log ((Q_MAX : ℚ) : ℝ) := by
  apply Real.log_lt_log
  · norm_num [Q_MIN]
  · norm_num [Q_MIN, Q_MAX]

theorem q_clamp_bounds (q : ℚ) :
    Q_MIN ≤ max Q_MIN (min Q_MAX q) ∧ max Q_MIN (min Q_MAX q) ≤ Q_MAX :=
  ⟨le_max_left _ _, max_le (by norm_num [Q_MIN, Q_MAX]) (min_le_left _ _)⟩

theorem qmin_pos : (0 : ℝ) < ((Q_MIN : ℚ) : ℝ) := by norm_num [Q_MIN]

theorem q_to_proq4_eq (q : ℚ) (t : String) :
    q_to_proq4 q t =
      (Real.log ((max Q_MIN (min Q_MAX q) : ℚ) : ℝ) - Real.log ((Q_MIN : ℚ) : ℝ)) /
        (Real.log ((Q_MAX : ℚ) : ℝ) - Real.log ((Q_MIN : ℚ) : ℝ)) := rfl

/-- C3: `q_to_proq4` clamps to `[0.025, 40]`, log-normalizes into `[0, 1]`,
is monotone non-decreasing, hits the boundaries exactly, treats
out-of-range inputs as the boundaries, and ignores `filter_type`. -/
theorem c3_q_to_proq4_properties (q q₁ q₂ : ℚ) (t t' : String) :
    (0 ≤ q_to_proq4 q t ∧ q_to_proq4 q t ≤ 1) ∧
    (q₁ ≤ q₂ → q_to_proq4 q₁ t ≤ q_to_proq4 q₂ t) ∧
    q_to_proq4 0.025 t = 0 ∧
    q_to_proq4 40.0 t = 1 ∧
    (q ≤ 0.025 → q_to_proq4 q t = q_to_proq4 0.025 t) ∧
    (40.0 ≤ q → q_to_proq4 q t = q_to_proq4 40.0 t) ∧
    q_to_proq4 q t = q_to_proq4 q t' ∧
    q_to_proq4 q t =
      (Real.log ((max Q_MIN (min Q_MAX q) : ℚ) : ℝ) - Real.log ((Q_MIN : ℚ) : ℝ)) /
        (Real.log ((Q_MAX : ℚ) : ℝ) - Real.log ((Q_MIN : ℚ) : ℝ)) := by
  have hd : (0 : ℝ) < Real.log ((Q_MAX : ℚ) : ℝ) - Real.log ((Q_MIN : ℚ) : ℝ) :=
    sub_pos.mpr qmin_lt_qmax_log
  have hcpos : ∀ a : ℚ, (0 : ℝ) < ((max Q_MIN (min Q_MAX a) : ℚ) : ℝ) := fun a =>
    lt_of_lt_of_le qmin_pos (by exact_mod_cast (q_clamp_bounds a).1)
  have hlog_lb : ∀ a : ℚ, Real.log ((Q_MIN : ℚ) : ℝ) ≤ Real.log ((max Q_MIN (min Q_MAX a) : ℚ) : ℝ) := by
    intro a
    rw [Real.log_le_log_iff qmin_pos (hcpos a)]
    exact_mod_cast (q_clamp_bounds a).1
  have hlog_ub : ∀ a : ℚ, Real.log ((max Q_MIN (min Q_MAX a) : ℚ) : ℝ) ≤ Real.log ((Q_MAX : ℚ) : ℝ) := by
    intro a
    rw [Real.log_le_log_iff (hcpos a) (by norm_num [Q_MAX])]
    exact_mod_cast (q_clamp_bounds a).2
  have hmin_eq : max Q_MIN (min Q_MAX (0.025 : ℚ)) = Q_MIN := by
    norm_num [Q_MIN, Q_MAX, max_def, min_def]
  have hmax_eq : max Q_MIN (min Q_MAX (40.0 : ℚ)) = Q_MAX := by
    norm_num [Q_MIN, Q_MAX, max_def, min_def]
  refine ⟨⟨?_, ?_⟩, ?_, ?_, ?_, ?_, ?_, rfl, rfl⟩
  · exact div_nonneg (sub_nonneg.mpr (hlog_lb q)) hd.le
  · rw [q_to_proq4_eq, div_le_one hd]
    exact sub_le_sub_right (hlog_ub q) _
  · intro h12
    rw [q_to_proq4_eq, q_to_proq4_eq]
    have hle : ((max Q_MIN (min Q_MAX q₁) : ℚ) : ℝ) ≤ ((max Q_MIN (min Q_MAX q₂) : ℚ) : ℝ) := by
      exact_mod_cast max_le_max le_rfl (min_le_min le_rfl h12)
    have := (Real.log_le_log_iff (hcpos q₁) (hcpos q₂)).mpr hle
    exact div_le_div_of_nonneg_right (sub_le_sub_right this _) hd.le
  · rw [q_to_proq4_eq, hmin_eq, sub_self, zero_div]
  · rw [q_to_proq4_eq, hmax_eq, div_self hd.ne']
  · intro hq
    rw [q_to_proq4_eq, q_to_proq4_eq, hmin_eq]
    have : max Q_MIN (min Q_MAX q) = Q_MIN := by
      have h1 : min Q_MAX q = q := min_eq_right (by rw [Q_MAX]; exact le_trans hq (by norm_num))
      rw [h1]
      exact max_eq_left (by rw [Q_MIN]; exact hq)
    rw [this]
  · intro hq
    rw [q_to_proq4_eq, q_to_proq4_eq, hmax_eq]
    have : max Q_MIN (min Q_MAX q) = Q_MAX := by
      have h1 : min Q_MAX q = Q_MAX := min_eq_left (by rw [Q_MAX]; exact hq)
      rw [h1]
      exact max_eq_right (by norm_num [Q_MIN, Q_MAX])
    rw [this]

end Converter

namespace Converter

/-- C3 witness at `q₁ = 1 ≤ q₂ = 2`, `q = 0.01` (below range) and `q = 50`
(above range). -/
theorem c3_q_to_proq4_properties_witness :
    ((1 : ℚ) ≤ 2 ∧ q_to_proq4 1 "PK" ≤ q_to_proq4 2 "PK") ∧
    ((0.01 : ℚ) ≤ 0.025 ∧ q_to_proq4 0.01 "PK" = q_to_proq4 0.025 "PK") ∧
    ((40.0 : ℚ) ≤ 50 ∧ q_to_proq4 50 "PK" = q_to_proq4 40.0 "PK") :=
  ⟨⟨by norm_num, (c3_q_to_proq4_properties 1 1 2 "PK" "LP").2.1 (by norm_num)⟩,
   ⟨by norm_num, (c3_q_to_proq4_properties 0.01 1 2 "PK" "LP").2.2.2.2.1 (by norm_num)⟩,
   ⟨by norm_num, (c3_q_to_proq4_properties 50 1 2 "PK" "LP").2.2.2.2.2.1 (by norm_num)⟩⟩

end Converter

namespace Converter

/-- Extract the payload of a successful conversion (dummy on failure);
used to name concrete outputs in witnesses. -/
noncomputable def outOf (p : EQPreset) : FFP :=
  match eq_preset_to_ffp p with
  | some o => o
  | none => { signature := "", version := 0, author := "", tags := "",
              bands := [], globals := [], tilts := [] }

theorem eq_preset_to_ffp_some {p : EQPreset} {out : FFP}
    (h : eq_preset_to_ffp p = some out) :
    ∃ bands, mapO (mkBand p.filters) (List.range' 1 24) = some bands ∧
      out = { signature := "FQ4p", version := 4, author := p.author,
              tags := p.tags, bands := bands,
              globals := globalParams p.preamp,
              tilts := (List.range' 1 24).map
                (fun i => (i, if i ≤ p.filters.length then (1 : ℚ) else 0)) } := by
  unfold eq_preset_to_ffp at h
  cases hm : mapO (mkBand p.filters) (List.range' 1 24) with
  | none => rw [hm] at h; simp at h
  | some bands =>
    rw [hm] at h
    simp at h
    exact ⟨bands, rfl, h.symm⟩

theorem range'_getElem? {N : ℕ} (h1 : 1 ≤ N) (h2 : N ≤ 24) :
    (List.range' 1 24)[N - 1]? = some N := by
  rw [List.getElem?_range' 1 1 (show N - 1 < 24 by omega)]
  congr 1
  omega

/-- If the conversion succeeded and band `N` is backed by filter `f`, then
the emitted band block is exactly the used-band block computed from `f`. -/
theorem bands_get {p : EQPreset} {out : FFP} {N : ℕ} {f : Filter}
    (hout : eq_preset_to_ffp p = some out) (h1 : 1 ≤ N) (h2 : N ≤ 24)
    (hf : p.filters[N - 1]? = some f) :
    ∃ bp, usedBandParams N f = some bp ∧ out.bands[N - 1]? = some (N, bp) := by
  obtain ⟨bands, hm, rfl⟩ := eq_preset_to_ffp_some hout
  obtain ⟨b, hb, hget⟩ := mapO_get? hm (N - 1) N (range'_getElem? h1 h2)
  unfold mkBand at hb
  rw [hf] at hb
  obtain ⟨bp, hbp, rfl⟩ := Option.map_eq_some'.mp hb
  exact ⟨bp, hbp, hget⟩

/-- C5: a non-positive frequency makes the transform fail, and such a
filter aborts the conversion of the whole preset, propagating `none` to
the caller of `convert_text_to_ffp`. -/
theorem c5_nonpositive_frequency_aborts (x : ℚ) (p : EQPreset) (N : ℕ)
    (f : Filter) (text author tags : String) :
    (x ≤ 0 → frequency_to_proq4 x = none) ∧
    (1 ≤ N → N ≤ 24 → p.filters[N - 1]? = some f → f.frequency ≤ 0 →
      eq_preset_to_ffp p = none) ∧
    (1 ≤ N → N ≤ 24 →
      (parse_text_preset text).filters[N - 1]? = some f →
      f.frequency ≤ 0 → convert_text_to_ffp text author tags = none) := by
  have habort : ∀ (q : EQPreset), 1 ≤ N → N ≤ 24 →
      q.filters[N - 1]? = some f → f.frequency ≤ 0 →
      eq_preset_to_ffp q = none := by
    intro q h1 h2 hf hneg
    have hu : usedBandParams N f = none := by
      unfold usedBandParams frequency_to_proq4
      rw [if_neg (not_lt.mpr hneg)]
    have hnone : mkBand q.filters N = none := by
      simp [mkBand, hf, hu]
    unfold eq_preset_to_ffp
    rw [mapO_eq_none (mem_range'_iff.mpr ⟨h1, by omega⟩) hnone]
  refine ⟨?_, habort p, ?_⟩
  · intro hx
    unfold frequency_to_proq4
    rw [if_neg (not_lt.mpr hx)]
  · intro h1 h2 hf hneg
    exact habort _ h1 h2 hf hneg

/-- A filter with frequency 0 (the only parser-producible bad input). -/
def zeroFreqFilter : Filter :=
  { enabled := true, filter_type := "PK", frequency := 0, gain := 1, q := 1 }

/-- A preset holding `zeroFreqFilter`. -/
def zeroFreqPreset : EQPreset := { preamp := 0, filters := [zeroFreqFilter] }

/-- C5 witness: frequency 0 in band 1 aborts a one-filter preset and the
full text conversion. -/
theorem c5_nonpositive_frequency_aborts_witness :
    ((0 : ℚ) ≤ 0 ∧ frequency_to_proq4 0 = none) ∧
    eq_preset_to_ffp zeroFreqPreset = none ∧
    convert_text_to_ffp "Filter 1: ON PK Fc 0 Hz Gain 1 dB Q 1" "" "" = none := by
  have base := c5_nonpositive_frequency_aborts 0 zeroFreqPreset 1 zeroFreqFilter
    "Filter 1: ON PK Fc 0 Hz Gain 1 dB Q 1" "" ""
  refine ⟨⟨le_refl 0, base.1 (le_refl 0)⟩, ?_, ?_⟩
  · exact base.2.1 (by norm_num) (by norm_num) rfl (le_refl 0)
  · exact base.2.2 (by norm_num) (by norm_num) (by rfl) (le_refl 0)

end Converter

namespace Converter

/-- C6: the emitted `Output Level` is the preamp divided by 36 with no
clamping (every target value is reachable), and a preset with no filters
and no preamp line yields the line `Output Level=0`. -/
theorem c6_output_level (p : EQPreset) (out : FFP) (y : ℚ) :
    (eq_preset_to_ffp p = some out →
      ("Output Level", p.preamp / 36) ∈ out.globals) ∧
    (∃ x : ℚ, preamp_to_output_level x = y) ∧
    (parse_text_preset "").preamp = 0 ∧
    (parse_text_preset "").filters = [] ∧
    (∃ o, convert_text_to_ffp "" "" "" = some o ∧ ("Output Level", 0) ∈ o.globals) := by
  have heq : ∀ x : ℚ, preamp_to_output_level x = x / 36 := by
    intro x
    unfold preamp_to_output_level
    norm_num
  refine ⟨?_, ⟨36 * y, ?_⟩, rfl, rfl, ?_⟩
  · intro hout
    obtain ⟨bands, hm, rfl⟩ := eq_preset_to_ffp_some hout
    simp [globalParams, heq]
  · rw [heq]
    field_simp
  · refine ⟨outOf (parse_text_preset ""), rfl, ?_⟩
    show ("Output Level", (0 : ℚ)) ∈ (outOf (parse_text_preset "")).globals
    have hg : (outOf (parse_text_preset "")).globals = globalParams 0 := rfl
    rw [hg]
    have h0 : preamp_to_output_level 0 = 0 := by
      rw [heq]
      norm_num
    simp [globalParams, h0]

end Converter

namespace Converter

/-- A filterless preset with preamp 72 dB. -/
def preset72 : EQPreset := { preamp := 72, filters := [] }

/-- C6 witness: preamp 72 emits `Output Level=2` (72/36), unclamped. -/
theorem c6_output_level_witness :
    eq_preset_to_ffp preset72 = some (outOf preset72) ∧
    ("Output Level", (72 : ℚ) / 36) ∈ (outOf preset72).globals :=
  ⟨rfl, (c6_output_level preset72 (outOf preset72) 0).1 rfl⟩

end Converter

namespace Converter

/-- C7 counterexample: the default `Band N Frequency` constant in the code
is `9.96578407287598`, which is not the claimed `9.965784284662087`
(double-precision log2(1000)). -/
theorem c7_default_frequency_counterexample :
    (generate_default_band_params 1 false).frequency ≠ ((9.965784284662087 : ℚ) : ℝ) := by
  show ((9.96578407287598 : ℚ) : ℝ) ≠ ((9.965784284662087 : ℚ) : ℝ)
  rw [ne_eq, Rat.cast_inj]
  norm_num

/-- C7 (amended): for every band index and both `used` flags, the default
band record carries frequency `9.96578407287598` (the source's lower
precision approximation of log2(1000)), gain 0, Q 0.5 and shape 0. -/
theorem c7_default_band_values (N : ℕ) (used : Bool) :
    (generate_default_band_params N used).frequency = ((9.96578407287598 : ℚ) : ℝ) ∧
    (generate_default_band_params N used).gain = 0 ∧
    (generate_default_band_params N used).q = ((0.5 : ℚ) : ℝ) ∧
    (generate_default_band_params N used).shape = 0 :=
  ⟨rfl, rfl, rfl, rfl⟩

/-- C8: a used band block keeps every non-overridden field at the "used"
default, and the used/unused default sets differ exactly in the `Used`
flag, `Threshold`, `Side Chain Low Frequency` and `Side Chain High
Frequency`. -/
theorem c8_used_band_frame (i j : ℕ) (f : Filter) (bp : BandParams) :
    (usedBandParams i f = some bp →
      bp.slope = (generate_default_band_params i true).slope ∧
      bp.stereoPlacement = (generate_default_band_params i true).stereoPlacement ∧
      bp.speakers = (generate_default_band_params i true).speakers ∧
      bp.dynamicRange = (generate_default_band_params i true).dynamicRange ∧
      bp.dynamicsEnabled = (generate_default_band_params i true).dynamicsEnabled ∧
      bp.dynamicsAuto = (generate_default_band_params i true).dynamicsAuto ∧
      bp.threshold = (generate_default_band_params i true).threshold ∧
      bp.attack = (generate_default_band_params i true).attack ∧
      bp.releaseTime = (generate_default_band_params i true).releaseTime ∧
      bp.externalSideChain = (generate_default_band_params i true).externalSideChain ∧
      bp.sideChainFiltering = (generate_default_band_params i true).sideChainFiltering ∧
      bp.sideChainLowFrequency = (generate_default_band_params i true).sideChainLowFrequency ∧
      bp.sideChainHighFrequency = (generate_default_band_params i true).sideChainHighFrequency ∧
      bp.sideChainAudition = (generate_default_band_params i true).sideChainAudition ∧
      bp.spectralEnabled = (generate_default_band_params i true).spectralEnabled ∧
      bp.spectralDensity = (generate_default_band_params i true).spectralDensity ∧
      bp.solo = (generate_default_band_params i true).solo) ∧
    ((generate_default_band_params j true).used = 1 ∧
     (generate_default_band_params j false).used = 0 ∧
     (generate_default_band_params j true).threshold ≠
       (generate_default_band_params j false).threshold ∧
     (generate_default_band_params j true).sideChainLowFrequency ≠
       (generate_default_band_params j false).sideChainLowFrequency ∧
     (generate_default_band_params j true).sideChainHighFrequency ≠
       (generate_default_band_params j false).sideChainHighFrequency) ∧
    ((generate_default_band_params j true).enabled =
       (generate_default_band_params j false).enabled ∧
     (generate_default_band_params j true).frequency =
       (generate_default_band_params j false).frequency ∧
     (generate_default_band_params j true).gain =
       (generate_default_band_params j false).gain ∧
     (generate_default_band_params j true).q =
       (generate_default_band_params j false).q ∧
     (generate_default_band_params j true).shape =
       (generate_default_band_params j false).shape ∧
     (generate_default_band_params j true).slope =
       (generate_default_band_params j false).slope ∧
     (generate_default_band_params j true).stereoPlacement =
       (generate_default_band_params j false).stereoPlacement ∧
     (generate_default_band_params j true).speakers =
       (generate_default_band_params j false).speakers ∧
     (generate_default_band_params j true).dynamicRange =
       (generate_default_band_params j false).dynamicRange ∧
     (generate_default_band_params j true).dynamicsEnabled =
       (generate_default_band_params j false).dynamicsEnabled ∧
     (generate_default_band_params j true).dynamicsAuto =
       (generate_default_band_params j false).dynamicsAuto ∧
     (generate_default_band_params j true).attack =
       (generate_default_band_params j false).attack ∧
     (generate_default_band_params j true).releaseTime =
       (generate_default_band_params j false).releaseTime ∧
     (generate_default_band_params j true).externalSideChain =
       (generate_default_band_params j false).externalSideChain ∧
     (generate_default_band_params j true).sideChainFiltering =
       (generate_default_band_params j false).sideChainFiltering ∧
     (generate_default_band_params j true).sideChainAudition =
       (generate_default_band_params j false).sideChainAudition ∧
     (generate_default_band_params j true).spectralEnabled =
       (generate_default_band_params j false).spectralEnabled ∧
     (generate_default_band_params j true).spectralDensity =
       (generate_default_band_params j false).spectralDensity ∧
     (generate_default_band_params j true).solo =
       (generate_default_band_params j false).solo) := by
  refine ⟨?_, ⟨rfl, rfl, ?_, ?_, ?_⟩,
    rfl, rfl, rfl, rfl, rfl, rfl, rfl, rfl, rfl, rfl, rfl, rfl, rfl, rfl, rfl, rfl, rfl, rfl, rfl⟩
  · intro h
    unfold usedBandParams at h
    cases hfr : frequency_to_proq4 f.frequency with
    | none => rw [hfr] at h; simp at h
    | some fr =>
      rw [hfr] at h
      simp at h
      subst h
      exact ⟨rfl, rfl, rfl, rfl, rfl, rfl, rfl, rfl, rfl, rfl, rfl, rfl, rfl, rfl, rfl, rfl, rfl⟩
  · show (1 : ℚ) ≠ 0.666666686534882
    norm_num
  · show (6.64385604858398 : ℚ) ≠ 3.32192802429199
    norm_num
  · show (11.5507469177246 : ℚ) ≠ 14.287712097168
    norm_num

/-- A representative active filter used in witnesses. -/
def pkFilter : Filter :=
  { enabled := true, filter_type := "PK", frequency := 100, gain := 1, q := 1 }

/-- The used-band block of a filter, extracted (dummy on failure). -/
noncomputable def ubpOf (i : ℕ) (f : Filter) : BandParams :=
  match usedBandParams i f with
  | some bp => bp
  | none => generate_default_band_params i false

/-- C8 witness: the block for `pkFilter` in band 1 keeps e.g. the slope,
threshold and side-chain fields at their "used" defaults. -/
theorem c8_used_band_frame_witness :
    usedBandParams 1 pkFilter = some (ubpOf 1 pkFilter) ∧
    (ubpOf 1 pkFilter).slope = (generate_default_band_params 1 true).slope ∧
    (ubpOf 1 pkFilter).threshold = (generate_default_band_params 1 true).threshold ∧
    (ubpOf 1 pkFilter).sideChainLowFrequency =
      (generate_default_band_params 1 true).sideChainLowFrequency :=
  ⟨rfl, ((c8_used_band_frame 1 1 pkFilter (ubpOf 1 pkFilter)).1 rfl).1,
    ((c8_used_band_frame 1 1 pkFilter (ubpOf 1 pkFilter)).1 rfl).2.2.2.2.2.2.1,
    ((c8_used_band_frame 1 1 pkFilter (ubpOf 1 pkFilter)).1 rfl).2.2.2.2.2.2.2.2.2.2.2.1⟩

end Converter

namespace Converter

/-- C9: a band backed by an `OFF` filter is still emitted, with
`Enabled=0` but frequency/gain/Q/shape computed from the filter; the
filter-type-to-shape mapping is the closed set PK/LSC/LP/HSC/HP with
default 0. -/
theorem c9_off_filter_band (p : EQPreset) (out : FFP) (N : ℕ) (f : Filter)
    (s : String) :
    (eq_preset_to_ffp p = some out → 1 ≤ N → N ≤ 24 →
      p.filters[N - 1]? = some f → f.enabled = false →
      ∃ bp, out.bands[N - 1]? = some (N, bp) ∧
        bp.used = 1 ∧
        bp.enabled = 0 ∧
        frequency_to_proq4 f.frequency = some bp.frequency ∧
        bp.gain = f.gain ∧
        bp.q = q_to_proq4 f.q f.filter_type ∧
        bp.shape = (filter_type_to_shape f.filter_type : ℚ)) ∧
    (filter_type_to_shape "PK" = 0 ∧ filter_type_to_shape "LSC" = 1 ∧
     filter_type_to_shape "LP" = 2 ∧ filter_type_to_shape "HSC" = 3 ∧
     filter_type_to_shape "HP" = 4) ∧
    (s ≠ "PK" → s ≠ "LSC" → s ≠ "LP" → s ≠ "HSC" → s ≠ "HP" →
      filter_type_to_shape s = 0) := by
  refine ⟨?_, ⟨rfl, rfl, rfl, rfl, rfl⟩, ?_⟩
  · intro hout h1 h2 hf hoff
    obtain ⟨bp, hbp, hget⟩ := bands_get hout h1 h2 hf
    refine ⟨bp, hget, ?_⟩
    unfold usedBandParams at hbp
    cases hfr : frequency_to_proq4 f.frequency with
    | none => rw [hfr] at hbp; simp at hbp
    | some fr =>
      rw [hfr] at hbp
      simp at hbp
      subst hbp
      refine ⟨rfl, ?_, rfl, rfl, rfl, rfl⟩
      show (if f.enabled then (1 : ℚ) else 0) = 0
      rw [hoff]
      rfl
  · intro h1 h2 h3 h4 h5
    unfold filter_type_to_shape
    rw [if_neg h1, if_neg h2, if_neg h3, if_neg h4, if_neg h5]

/-- An `OFF` low-shelf filter used in the C9 witness. -/
def offFilter : Filter :=
  { enabled := false, filter_type := "LSC", frequency := 200, gain := 3, q := 2 }

/-- A preset whose only filter is `offFilter`. -/
def offPreset : EQPreset := { preamp := 0, filters := [offFilter] }

/-- C9 witness: the `OFF` filter's band is emitted with `Enabled=0` and
computed values, and an unknown type maps to shape 0. -/
theorem c9_off_filter_band_witness :
    eq_preset_to_ffp offPreset = some (outOf offPreset) ∧
    offFilter.enabled = false ∧
    (∃ bp, (outOf offPreset).bands[0]? = some (1, bp) ∧
      bp.used = 1 ∧
      bp.enabled = 0 ∧
      frequency_to_proq4 offFilter.frequency = some bp.frequency ∧
      bp.gain = offFilter.gain ∧
      bp.q = q_to_proq4 offFilter.q offFilter.filter_type ∧
      bp.shape = (filter_type_to_shape offFilter.filter_type : ℚ)) ∧
    filter_type_to_shape "XYZ" = 0 := by
  have base := c9_off_filter_band offPreset (outOf offPreset) 1 offFilter "XYZ"
  exact ⟨rfl, rfl,
    base.1 rfl (by norm_num) (by norm_num) rfl rfl,
    base.2.2 (by decide) (by decide) (by decide) (by decide) (by decide)⟩

end Converter

namespace Converter

theorem mapO_congr {f g : α → Option β} : ∀ {l : List α},
    (∀ a ∈ l, f a = g a) → mapO f l = mapO g l := by
  intro l
  induction l with
  | nil => intro _; rfl
  | cons x t ih =>
    intro h
    simp only [mapO]
    rw [h x (List.mem_cons_self x t), ih (fun a ha => h a (List.mem_cons_of_mem x ha))]

theorem mapO_map_eq {f : α → Option β} {g : β → α}
    (hg : ∀ a b, f a = some b → g b = a) : ∀ {l : List α} {bs : List β},
    mapO f l = some bs → bs.map g = l := by
  intro l
  induction l with
  | nil => intro bs h; simp [mapO] at h; simp [← h]
  | cons x t ih =>
    intro bs h
    simp only [mapO] at h
    cases hfx : f x with
    | none => rw [hfx] at h; simp at h
    | some b =>
      rw [hfx] at h
      cases hmt : mapO f t with
      | none => rw [hmt] at h; simp at h
      | some bt =>
        rw [hmt] at h
        simp at h
        subst h
        simp [hg x b hfx, ih hmt]

theorem mkBand_fst {fs : List Filter} {i : ℕ} {b : ℕ × BandParams}
    (h : mkBand fs i = some b) : b.1 = i := by
  unfold mkBand at h
  cases hf : fs[i - 1]? with
  | some filt =>
    rw [hf] at h
    obtain ⟨bp, _, rfl⟩ := Option.map_eq_some'.mp h
    rfl
  | none =>
    rw [hf] at h
    simp at h
    rw [← h]

/-- C1: the output always has exactly 24 band blocks (indices 1..24) and
exactly 24 `Spectral Tilt` lines; tilt `N` is 1 iff band `N` has a filter;
filters beyond the 24th never influence the output. -/
theorem c1_output_shape (p : EQPreset) (out : FFP) :
    eq_preset_to_ffp p = some out →
    out.bands.length = 24 ∧
    out.bands.map Prod.fst = List.range' 1 24 ∧
    out.tilts.length = 24 ∧
    (∀ N, 1 ≤ N → N ≤ 24 →
      out.tilts[N - 1]? = some (N, if N ≤ p.filters.length then (1 : ℚ) else 0)) ∧
    eq_preset_to_ffp { p with filters := p.filters.take 24 } = some out := by
  intro hout
  obtain ⟨bands, hm, rfl⟩ := eq_preset_to_ffp_some hout
  have hlen : bands.length = 24 := by
    rw [mapO_length hm]
    simp
  refine ⟨hlen, mapO_map_eq (fun i b => mkBand_fst) hm, by simp, ?_, ?_⟩
  · intro N h1 h2
    show ((List.range' 1 24).map _)[N - 1]? = _
    rw [List.getElem?_map, range'_getElem? h1 h2]
    rfl
  · have htake : mapO (mkBand (p.filters.take 24)) (List.range' 1 24) = some bands := by
      rw [mapO_congr (f := mkBand (p.filters.take 24)) (g := mkBand p.filters) ?_]
      · exact hm
      · intro i hi
        rw [mem_range'_iff] at hi
        unfold mkBand
        rw [List.getElem?_take_of_lt (by omega)]
    have htilts : (List.range' 1 24).map
          (fun i => (i, if i ≤ (p.filters.take 24).length then (1 : ℚ) else 0)) =
        (List.range' 1 24).map
          (fun i => (i, if i ≤ p.filters.length then (1 : ℚ) else 0)) := by
      apply List.map_congr_left
      intro i hi
      rw [mem_range'_iff] at hi
      have hc : (i ≤ (p.filters.take 24).length) ↔ (i ≤ p.filters.length) := by
        rw [List.length_take]
        omega
      exact congrArg (Prod.mk i) (if_congr hc rfl rfl)
    show eq_preset_to_ffp _ = _
    unfold eq_preset_to_ffp
    rw [htake]
    rw [show ({ p with filters := p.filters.take 24 } : EQPreset).filters = p.filters.take 24 from rfl]
    rw [htilts]

/-- C1 witness at the empty preset: 24 bands, 24 tilt lines, tilt 24 = 0. -/
theorem c1_output_shape_witness :
    eq_preset_to_ffp preset72 = some (outOf preset72) ∧
    (outOf preset72).bands.length = 24 ∧
    (outOf preset72).tilts.length = 24 ∧
    (outOf preset72).tilts[23]? =
      some (24, if 24 ≤ preset72.filters.length then (1 : ℚ) else 0) := by
  have base := c1_output_shape preset72 (outOf preset72) rfl
  exact ⟨rfl, base.1, base.2.2.1, base.2.2.2.1 24 (by norm_num) (by norm_num)⟩

end Converter

namespace Converter

theorem litM_append_self : ∀ (p cs : List Char), litM p (p ++ cs) = some cs := by
  intro p
  induction p with
  | nil => intro cs; rfl
  | cons c t ih => intro cs; simp [litM, ih]

theorem dropWhile_append_of_all {p : Char → Bool} : ∀ {xs ys : List Char},
    (∀ x ∈ xs, p x = true) → (xs ++ ys).dropWhile p = ys.dropWhile p := by
  intro xs
  induction xs with
  | nil => intro ys _; rfl
  | cons x t ih =>
    intro ys h
    rw [List.cons_append, List.dropWhile_cons, if_pos (h x (by simp))]
    exact ih (fun a ha => h a (by simp [ha]))

theorem digit_not_space {c : Char} (h : c.isDigit = true) : isSpaceC c = false := by
  cases hc : isSpaceC c
  · rfl
  · exfalso
    simp only [isSpaceC, Bool.or_eq_true, decide_eq_true_eq] at hc
    rcases hc with ((((rfl | rfl) | rfl) | rfl) | rfl) | rfl <;> exact absurd h (by decide)

/-- The `\s+\d+:` segment of the filter pattern is skipped without
contributing anything to the parsed record. -/
theorem matchFilterAt_skip_number (ws ds rest : List Char)
    (hws : ws ≠ []) (hw : ∀ c ∈ ws, isSpaceC c = true)
    (hds : ds ≠ []) (hd : ∀ c ∈ ds, c.isDigit = true) :
    matchFilterAt ("Filter".data ++ (ws ++ (ds ++ ':' :: rest))) =
      matchFilterAfterColon rest := by
  obtain ⟨w, ws', rfl⟩ := List.exists_cons_of_ne_nil hws
  obtain ⟨d, ds', rfl⟩ := List.exists_cons_of_ne_nil hds
  have hw0 : isSpaceC w = true := hw w (by simp)
  have hd0 : d.isDigit = true := hd d (by simp)
  have h1 : ws1 ((w :: ws') ++ ((d :: ds') ++ ':' :: rest)) =
      some ((d :: ds') ++ ':' :: rest) := by
    show (if isSpaceC w then some ((ws' ++ ((d :: ds') ++ ':' :: rest)).dropWhile isSpaceC)
          else none) = _
    rw [if_pos hw0, dropWhile_append_of_all (fun c hc => hw c (by simp [hc]))]
    congr 1
    rw [List.cons_append, List.dropWhile_cons,
      if_neg (by rw [digit_not_space hd0]; exact Bool.false_ne_true)]
  have h2 : digits1drop ((d :: ds') ++ ':' :: rest) = some (':' :: rest) := by
    show (if d.isDigit then some ((ds' ++ ':' :: rest).dropWhile Char.isDigit) else none) = _
    rw [if_pos hd0, dropWhile_append_of_all (fun c hc => hd c (by simp [hc]))]
    rw [List.dropWhile_cons, if_neg (by decide)]

  have h3 : litM [':'] (':' :: rest) = some rest := by
    simp [litM]
  unfold matchFilterAt
  rw [litM_append_self, Option.some_bind, h1, Option.some_bind, h2, Option.some_bind,
    h3, Option.some_bind]

/-- C2: band `N` of the output is computed from the `N`-th parsed filter in
scan order, and the literal filter number in a filter line has no effect on
the parsed record. -/
theorem c2_band_is_nth_filter (p : EQPreset) (out : FFP) (N : ℕ) (f : Filter)
    (ws ds₁ ds₂ rest : List Char) :
    (eq_preset_to_ffp p = some out → 1 ≤ N → N ≤ 24 →
      p.filters[N - 1]? = some f →
      ∃ bp, usedBandParams N f = some bp ∧ out.bands[N - 1]? = some (N, bp)) ∧
    (ws ≠ [] → (∀ c ∈ ws, isSpaceC c = true) →
     ds₁ ≠ [] → (∀ c ∈ ds₁, c.isDigit = true) →
     ds₂ ≠ [] → (∀ c ∈ ds₂, c.isDigit = true) →
      matchFilterAt ("Filter".data ++ (ws ++ (ds₁ ++ ':' :: rest))) =
        matchFilterAt ("Filter".data ++ (ws ++ (ds₂ ++ ':' :: rest)))) := by
  constructor
  · intro hout h1 h2 hf
    exact bands_get hout h1 h2 hf
  · intro hws hw h1 hd1 h2 hd2
    rw [matchFilterAt_skip_number ws ds₁ rest hws hw h1 hd1,
      matchFilterAt_skip_number ws ds₂ rest hws hw h2 hd2]

/-- A two-filter preset used in the C2 witness. -/
def twoFilterPreset : EQPreset := { preamp := 0, filters := [pkFilter, offFilter] }

/-- C2 witness: band 2 of a two-filter preset comes from the second filter,
and renumbering a filter line from 1 to 97 leaves the parsed record
unchanged. -/
theorem c2_band_is_nth_filter_witness :
    eq_preset_to_ffp twoFilterPreset = some (outOf twoFilterPreset) ∧
    twoFilterPreset.filters[1]? = some offFilter ∧
    (∃ bp, usedBandParams 2 offFilter = some bp ∧
      (outOf twoFilterPreset).bands[1]? = some (2, bp)) ∧
    matchFilterAt ("Filter".data ++ ([' '] ++ (['1'] ++ ':' ::
        " ON PK Fc 100 Hz Gain 1 dB Q 1".data))) =
      matchFilterAt ("Filter".data ++ ([' '] ++ (['9', '7'] ++ ':' ::
        " ON PK Fc 100 Hz Gain 1 dB Q 1".data))) := by
  have base := c2_band_is_nth_filter twoFilterPreset (outOf twoFilterPreset) 2 offFilter
    [' '] ['1'] ['9', '7'] " ON PK Fc 100 Hz Gain 1 dB Q 1".data
  refine ⟨rfl, rfl, base.1 rfl (by norm_num) (by norm_num) rfl, ?_⟩
  exact base.2 (by simp) (by decide) (by simp) (by decide) (by simp) (by decide)

end Converter

namespace Converter

theorem fracVal_nonneg (ds : List Char) : 0 ≤ fracVal ds := by
  unfold fracVal
  positivity

theorem readUNum_nonneg {cs : List Char} {v : ℚ × List Char}
    (h : readUNum cs = some v) : 0 ≤ v.1 := by
  unfold readUNum at h
  cases htw : cs.takeWhile Char.isDigit with
  | nil => rw [htw] at h; simp at h
  | cons d ds =>
    cases hdw : cs.dropWhile Char.isDigit with
    | nil =>
      simp only [htw, hdw, Option.some.injEq] at h
      rw [← h]
      show (0 : ℚ) ≤ ↑(digitsVal (d :: ds))
      positivity
    | cons c r2 =>
      simp only [htw, hdw] at h
      by_cases hc : c = '.'
      · rw [if_pos hc, Option.some.injEq] at h
        rw [← h]
        show (0 : ℚ) ≤ ↑(digitsVal (d :: ds)) + fracVal (r2.takeWhile Char.isDigit)
        have := fracVal_nonneg (r2.takeWhile Char.isDigit)
        positivity
      · rw [if_neg hc, Option.some.injEq] at h
        rw [← h]
        show (0 : ℚ) ≤ ↑(digitsVal (d :: ds))
        positivity

theorem matchFilterFreq_nonneg {cs : List Char} {fc : ℚ × List Char}
    (h : matchFilterFreq cs = some fc) : 0 ≤ fc.1 := by
  unfold matchFilterFreq at h
  obtain ⟨v, hv, h⟩ := Option.bind_eq_some.mp h
  obtain ⟨r13, _, h⟩ := Option.bind_eq_some.mp h
  obtain ⟨r14, _, h⟩ := Option.bind_eq_some.mp h
  obtain ⟨r15, _, h⟩ := Option.bind_eq_some.mp h
  obtain ⟨r16, _, hfc⟩ := Option.map_eq_some'.mp h
  have hnn := readUNum_nonneg hv
  rw [← hfc]
  exact hnn

theorem matchFilterGainQ_q_nonneg {cs : List Char} {gq : ℚ × ℚ}
    (h : matchFilterGainQ cs = some gq) : 0 ≤ gq.2 := by
  unfold matchFilterGainQ at h
  obtain ⟨g, hg, h⟩ := Option.bind_eq_some.mp h
  obtain ⟨r18, _, h⟩ := Option.bind_eq_some.mp h
  obtain ⟨r19, _, h⟩ := Option.bind_eq_some.mp h
  obtain ⟨r20, _, h⟩ := Option.bind_eq_some.mp h
  obtain ⟨r21, _, h⟩ := Option.bind_eq_some.mp h
  obtain ⟨qv, hqv, hgq⟩ := Option.map_eq_some'.mp h
  have hnn := readUNum_nonneg hqv
  rw [← hgq]
  exact hnn

theorem matchFilterAfterColon_nonneg {cs : List Char} {f : Filter}
    (h : matchFilterAfterColon cs = some f) : 0 ≤ f.frequency ∧ 0 ≤ f.q := by
  unfold matchFilterAfterColon at h
  obtain ⟨r5, _, h⟩ := Option.bind_eq_some.mp h
  obtain ⟨hd, _, h⟩ := Option.bind_eq_some.mp h
  obtain ⟨fc, hfc, h⟩ := Option.bind_eq_some.mp h
  obtain ⟨gq, hgq, hf⟩ := Option.map_eq_some'.mp h
  have h1 := matchFilterFreq_nonneg hfc
  have h2 := matchFilterGainQ_q_nonneg hgq
  rw [← hf]
  exact ⟨h1, h2⟩

theorem matchFilterAt_nonneg {cs : List Char} {f : Filter}
    (h : matchFilterAt cs = some f) : 0 ≤ f.frequency ∧ 0 ≤ f.q := by
  unfold matchFilterAt at h
  obtain ⟨r1, _, h⟩ := Option.bind_eq_some.mp h
  obtain ⟨r2, _, h⟩ := Option.bind_eq_some.mp h
  obtain ⟨r3, _, h⟩ := Option.bind_eq_some.mp h
  obtain ⟨r4, _, h⟩ := Option.bind_eq_some.mp h
  exact matchFilterAfterColon_nonneg h

theorem searchO_some {m : List Char → Option α} : ∀ {cs : List Char} {a : α},
    searchO m cs = some a → ∃ cs', m cs' = some a := by
  intro cs
  induction cs with
  | nil => intro a h; exact ⟨[], h⟩
  | cons c t ih =>
    intro a h
    unfold searchO at h
    cases hm : m (c :: t) with
    | some b => rw [hm] at h; exact ⟨c :: t, hm.trans h⟩
    | none => rw [hm] at h; exact ih h

theorem parseLine_mem {st : ℚ × List Filter} {l : List Char} {f : Filter}
    (h : f ∈ (parseLine st l).2) :
    f ∈ st.2 ∨ ∃ cs, matchFilterAt cs = some f := by
  unfold parseLine at h
  by_cases hp : startsWithC "Preamp:".data (pyStrip l) = true
  · rw [if_pos hp] at h
    cases hs : searchO matchPreampAt (pyStrip l) with
    | some v => rw [hs] at h; exact Or.inl h
    | none => rw [hs] at h; exact Or.inl h
  · rw [if_neg hp] at h
    by_cases hq : startsWithC "Filter".data (pyStrip l) = true
    · rw [if_pos hq] at h
      cases hs : searchO matchFilterAt (pyStrip l) with
      | some f' =>
        rw [hs] at h
        rcases List.mem_append.mp h with h' | h'
        · exact Or.inl h'
        · rw [List.mem_singleton.mp h']
          exact Or.inr (searchO_some hs)
      | none => rw [hs] at h; exact Or.inl h
    · rw [if_neg hq] at h
      exact Or.inl h

theorem foldl_parseLine_mem : ∀ {lines : List (List Char)}
    {st : ℚ × List Filter} {f : Filter},
    f ∈ (lines.foldl parseLine st).2 →
    f ∈ st.2 ∨ ∃ cs, matchFilterAt cs = some f := by
  intro lines
  induction lines with
  | nil => intro st f h; exact Or.inl h
  | cons l ls ih =>
    intro st f h
    rw [List.foldl_cons] at h
    rcases ih h with h' | h'
    · exact parseLine_mem h'
    · exact Or.inr h'

/-- C10: the parser is total by construction; every filter it produces has
non-negative frequency and Q (the pattern admits no sign there), so the
frequency transform can only fail on a parsed frequency of exactly 0. -/
theorem c10_parser_output_safety (text : String) (f : Filter) :
    f ∈ (parse_text_preset text).filters →
    0 ≤ f.frequency ∧ 0 ≤ f.q ∧
    (frequency_to_proq4 f.frequency = none ↔ f.frequency = 0) := by
  intro hmem
  have h : f ∈ (0, ([] : List Filter)).2 ∨ ∃ cs, matchFilterAt cs = some f :=
    foldl_parseLine_mem hmem
  rcases h with h | ⟨cs, hcs⟩
  · simp at h
  · obtain ⟨hfreq, hq⟩ := matchFilterAt_nonneg hcs
    refine ⟨hfreq, hq, ?_, ?_⟩
    · intro hnone
      unfold frequency_to_proq4 at hnone
      by_cases hpos : 0 < f.frequency
      · rw [if_pos hpos] at hnone; exact absurd hnone (by simp)
      · exact le_antisymm (not_lt.mp hpos) hfreq
    · intro h0
      unfold frequency_to_proq4
      rw [h0]
      norm_num

/-- C10 witness: a concrete parsed filter has non-negative frequency and Q,
and its transform succeeds. -/
theorem c10_parser_output_safety_witness :
    pkFilter ∈ (parse_text_preset "Filter 1: ON PK Fc 100 Hz Gain 1 dB Q 1").filters ∧
    0 ≤ pkFilter.frequency ∧ 0 ≤ pkFilter.q ∧
    (frequency_to_proq4 pkFilter.frequency = none ↔ pkFilter.frequency = 0) := by
  have hmem : pkFilter ∈ (parse_text_preset "Filter 1: ON PK Fc 100 Hz Gain 1 dB Q 1").filters := by
    show pkFilter ∈ [pkFilter]
    exact List.mem_singleton.mpr rfl
  exact ⟨hmem, c10_parser_output_safety _ pkFilter hmem⟩

end Converter
